import Mathlib

/-!
Shallow embedding of the cu2qu cubic-to-quadratic approximation engine
(`Lib/cu2qu/__init__.py`).

Modelling conventions:
* Python floats are idealized as exact rationals (`ℚ`); float division is
  exact rational division.  Python's `ZeroDivisionError` on `x / 0.0` is
  modelled explicitly where the source catches it (`calc_intersect`).
* `math.hypot` is the exact Euclidean norm, so distances live in `ℝ`
  (`Real.sqrt` of a rational sum of squares).  Every distance computed by the
  code is the square root of a rational; the rational squared-distance
  functions (`dist_sq`, `curve_spline_dist_sq`) are the computable shadows of
  the real-valued ones, related by `curve_spline_dist_eq_sqrt`.
* The float comparison `error <= max_err` (with `error = sqrt errSq`) is
  decided by `err_le errSq max_err`; `err_le_iff` proves this test equivalent
  to the real comparison `Real.sqrt errSq ≤ max_err`.
* Python raising `ApproxNotFoundError` is modelled with `Except`; returning
  `None` is modelled with `Option`.
-/

namespace Cu2qu

/-- A point (or vector): an ordered pair of rational coordinates, modelling the
2-tuples of floats used throughout the source. -/
abbrev Point := ℚ × ℚ

/-- A cubic Bézier curve: exactly four points (start, two control points, end),
modelling the 4-tuples passed to the source functions. -/
structure Cubic where
  p0 : Point
  p1 : Point
  p2 : Point
  p3 : Point
  deriving DecidableEq, Repr

instance : Inhabited Cubic := ⟨⟨(0, 0), (0, 0), (0, 0), (0, 0)⟩⟩

/-- MAX_N = 100: the hard cap on the segment count searched by the drivers. -/
def MAX_N : ℕ := 100

/-- Source `vector(p1, p2)`: the vector from p1 to p2, i.e. `p2 - p1`
componentwise. -/
def vector (p1 p2 : Point) : Point :=
  (p2.1 - p1.1, p2.2 - p1.2)

/-- Source `translate(p, v)`: translate a point by a vector. -/
def translate (p v : Point) : Point :=
  (p.1 + v.1, p.2 + v.2)

/-- Source `scale(v, n)`: scale a vector by a scalar. -/
def scale (v : Point) (n : ℚ) : Point :=
  (v.1 * n, v.2 * n)

/-- Squared Euclidean distance between two points: the (rational) square of
the source's `dist(p1, p2) = hypot(p1[0]-p2[0], p1[1]-p2[1])`. -/
def dist_sq (p1 p2 : Point) : ℚ :=
  (p1.1 - p2.1) ^ 2 + (p1.2 - p2.2) ^ 2

/-- Source `dist(p1, p2)`: the Euclidean distance
`hypot(p1[0]-p2[0], p1[1]-p2[1])`, an exact real number. -/
noncomputable def dist (p1 p2 : Point) : ℝ :=
  Real.sqrt (((p1.1 - p2.1 : ℚ) : ℝ) ^ 2 + ((p1.2 - p2.2 : ℚ) : ℝ) ^ 2)

/-- Source `dot(v1, v2)`: the dot product of two vectors. -/
def dot (v1 v2 : Point) : ℚ :=
  v1.1 * v2.1 + v1.2 * v2.2

/-- Source `lerp(a, b, t)`: linear interpolation between scalars,
`a * (1 - t) + b * t`. -/
def lerp (a b t : ℚ) : ℚ :=
  a * (1 - t) + b * t

/-- Source `lerp_pt(p1, p2, t)`: componentwise linear interpolation between
points. -/
def lerp_pt (p1 p2 : Point) (t : ℚ) : Point :=
  (lerp p1.1 p2.1 t, lerp p1.2 p2.2 t)

/-- Source `quadratic_bezier_at(p, t)`: evaluate a quadratic Bézier curve
(three points) at time t by nested interpolation. -/
def quadratic_bezier_at : Point × Point × Point → ℚ → Point
  | ((x1, y1), (x2, y2), (x3, y3)), t =>
    (lerp (lerp x1 x2 t) (lerp x2 x3 t) t,
     lerp (lerp y1 y2 t) (lerp y2 y3 t) t)

/-- Source `cubic_bezier_at(p, t)`: evaluate a cubic Bézier curve at time t by
nested interpolation. -/
def cubic_bezier_at : Cubic → ℚ → Point
  | ⟨(x1, y1), (x2, y2), (x3, y3), (x4, y4)⟩, t =>
    (lerp (lerp (lerp x1 x2 t) (lerp x2 x3 t) t)
          (lerp (lerp x2 x3 t) (lerp x3 x4 t) t) t,
     lerp (lerp (lerp y1 y2 t) (lerp y2 y3 t) t)
          (lerp (lerp y2 y3 t) (lerp y3 y4 t) t) t)

/-- Source `cubic_approx(p, t)`: approximate a cubic Bézier with a single
quadratic one, with control point interpolated at t between the two
extrapolated (factor 1.5) edge control points. -/
def cubic_approx (p : Cubic) (t : ℚ) : Point × Point × Point :=
  (p.p0, lerp_pt (lerp_pt p.p0 p.p1 (3 / 2)) (lerp_pt p.p3 p.p2 (3 / 2)) t, p.p3)

/-- Source `calc_intersect(p)`: intersection of lines ab and cd given the four
points `[a, b, c, d]`; `none` models the `ValueError` raised on a zero
denominator (`ZeroDivisionError` on the float division). -/
def calc_intersect (q : Cubic) : Option Point :=
  let a := q.p0
  let b := q.p1
  let c := q.p2
  let d := q.p3
  let ab := vector a b
  let cd := vector c d
  let p : Point := (-ab.2, ab.1)
  if dot p cd = 0 then none
  else some (translate c (scale cd (dot p (vector c a) / dot p cd)))

/-- Recursion worker for `splitCubicAtT`; the fuel argument (initially the
number of split parameters) makes the recursion structural. -/
def splitCubicGo : ℕ → Point → Point → Point → Point → List ℚ → List Cubic
  | 0, p0, p1, p2, p3, _ => [⟨p0, p1, p2, p3⟩]
  | fuel + 1, p0, p1, p2, p3, ts =>
    match ts with
    | [] => [⟨p0, p1, p2, p3⟩]
    | t :: ts =>
      let a1 := lerp_pt p0 p1 t
      let a2 := lerp_pt p1 p2 t
      let a3 := lerp_pt p2 p3 t
      let b1 := lerp_pt a1 a2 t
      let b2 := lerp_pt a2 a3 t
      let c := lerp_pt b1 b2 t
      ⟨p0, a1, b1, c⟩ ::
        splitCubicGo fuel c b2 a3 p3 (ts.map fun u => (u - t) / (1 - t))

/-- Modelled from the spec: the source calls
`fontTools.misc.bezierTools.splitCubicAtT` (a library external to this
repository) to split a cubic Bézier into sub-curves at the given parameters.
Per the spec this is the standard recursive curve-subdivision algorithm: split
at the first parameter by de Casteljau subdivision and recurse on the right
part with the remaining parameters renormalized to it. -/
def splitCubicAtT (p0 p1 p2 p3 : Point) (ts : List ℚ) : List Cubic :=
  splitCubicGo ts.length p0 p1 p2 p3 ts

/-- Source `cubic_approx_spline(p, n)`: approximate a cubic Bézier with a
spline of n quadratics; `none` when n is 1 and the cubic's control vectors are
parallel. -/
def cubic_approx_spline (p : Cubic) (n : ℕ) : Option (List Point) :=
  if n = 1 then
    match calc_intersect p with
    | none => none
    | some p1 => some [p.p0, p1, p.p3]
  else
    let ts := (List.range' 1 (n - 1)).map fun i : ℕ => (i : ℚ) / (n : ℚ)
    let segments := splitCubicAtT p.p0 p.p1 p.p2 p.p3 ts
    some (p.p0 ::
      (segments.enum.map fun e => (cubic_approx e.2 ((e.1 : ℚ) / ((n : ℚ) - 1))).2.1)
      ++ [p.p3])

/-- The quadratic triple the sampler rebuilds for segment i of the spline:
first point is the spline start for i = 1 and otherwise the previous
segment's reconstructed end (third component of `prev`); last point is the
spline end for i = n and otherwise the implied on-curve midpoint. -/
def csd_segment (spline : List Point) (n i : ℕ) (prev : Point × Point × Point) :
    Point × Point × Point :=
  ((if i = 1 then spline.getD 0 (0, 0) else prev.2.2),
   spline.getD i (0, 0),
   (if i = n then spline.getD (i + 1) (0, 0)
    else lerp_pt (spline.getD i (0, 0)) (spline.getD (i + 1) (0, 0)) (1 / 2)))

/-- Inner sampling loop of `curve_spline_dist` (squared shadow): for j in
`range steps`, track the running maximum of the squared distance between the
cubic at global parameter `(j/steps + i - 1)/n` and the quadratic segment at
local parameter `j/steps`. -/
def csd_inner (bezier : Cubic) (seg : Point × Point × Point) (n steps i : ℕ)
    (err : ℚ) : ℚ :=
  (List.range steps).foldl
    (fun (e : ℚ) (j : ℕ) =>
      max e (dist_sq
        (cubic_bezier_at bezier (((j : ℚ) / (steps : ℚ) + (i : ℚ) - 1) / (n : ℚ)))
        (quadratic_bezier_at seg ((j : ℚ) / (steps : ℚ)))))
    err

/-- Outer loop of `curve_spline_dist` (squared shadow): iterate i over the n
segments, carrying the previous reconstructed segment and the running maximum.
`count` is the number of remaining iterations. -/
def csd_outer (bezier : Cubic) (spline : List Point) (n steps : ℕ) :
    ℕ → ℕ → Point × Point × Point → ℚ → ℚ
  | 0, _, _, err => err
  | count + 1, i, prev, err =>
    let seg := csd_segment spline n i prev
    csd_outer bezier spline n steps count (i + 1) seg (csd_inner bezier seg n steps i err)

/-- Square of the source's `curve_spline_dist(bezier, spline)`: the maximum
squared distance over the sampled parameters, with `TOTAL_STEPS = 20` divided
by the segment count n using integer division. -/
def curve_spline_dist_sq (bezier : Cubic) (spline : List Point) : ℚ :=
  let n := spline.length - 2
  let steps := 20 / n
  csd_outer bezier spline n steps n 1 ((0, 0), (0, 0), (0, 0)) 0

/-- Inner sampling loop of `curve_spline_dist`, real-valued, tracking the
maximum of the Euclidean distances exactly as the source does. -/
noncomputable def csd_inner_real (bezier : Cubic) (seg : Point × Point × Point)
    (n steps i : ℕ) (err : ℝ) : ℝ :=
  (List.range steps).foldl
    (fun (e : ℝ) (j : ℕ) =>
      max e (dist
        (cubic_bezier_at bezier (((j : ℚ) / (steps : ℚ) + (i : ℚ) - 1) / (n : ℚ)))
        (quadratic_bezier_at seg ((j : ℚ) / (steps : ℚ)))))
    err

/-- Outer loop of `curve_spline_dist`, real-valued. -/
noncomputable def csd_outer_real (bezier : Cubic) (spline : List Point) (n steps : ℕ) :
    ℕ → ℕ → Point × Point × Point → ℝ → ℝ
  | 0, _, _, err => err
  | count + 1, i, prev, err =>
    let seg := csd_segment spline n i prev
    csd_outer_real bezier spline n steps count (i + 1) seg
      (csd_inner_real bezier seg n steps i err)

/-- Source `curve_spline_dist(bezier, spline)`: max distance between a cubic
Bézier and a quadratic spline at sampled parameters. -/
noncomputable def curve_spline_dist (bezier : Cubic) (spline : List Point) : ℝ :=
  let n := spline.length - 2
  let steps := 20 / n
  csd_outer_real bezier spline n steps n 1 ((0, 0), (0, 0), (0, 0)) 0

/-- Decides the source comparison `error <= max_err`, where the float `error`
is the square root of the rational `errSq`: equivalent (see `err_le_iff`) to
`Real.sqrt errSq ≤ max_err`. -/
def err_le (errSq max_err : ℚ) : Bool :=
  decide (0 ≤ max_err) && decide (errSq ≤ max_err ^ 2)

/-- Payload of the source's `ApproxNotFoundError`: the offending curve and the
last measured (squared) error, absent when no error was ever measured. -/
structure ApproxNotFoundError where
  curve : Cubic
  error : Option ℚ
  deriving DecidableEq, Repr

/-- Search loop of `curve_to_quadratic`: n counts up from 1, `fuel` is the
number of remaining candidate segment counts (initially MAX_N), `last` the
last measured squared error.  Exhaustion raises `ApproxNotFoundError`. -/
def ctq_loop (p : Cubic) (max_err : ℚ) :
    ℕ → ℕ → Option ℚ → Except ApproxNotFoundError (List Point × ℚ)
  | 0, _, last => .error ⟨p, last⟩
  | fuel + 1, n, last =>
    match cubic_approx_spline p n with
    | none => ctq_loop p max_err fuel (n + 1) last
    | some spline =>
      let errSq := curve_spline_dist_sq p spline
      if err_le errSq max_err then .ok (spline, errSq)
      else ctq_loop p max_err fuel (n + 1) (some errSq)

/-- Source `curve_to_quadratic(p, max_err)`: search n = 1, ..., MAX_N for the
first spline within tolerance; the returned error is squared (the source
returns its square root). -/
def curve_to_quadratic (p : Cubic) (max_err : ℚ) :
    Except ApproxNotFoundError (List Point × ℚ) :=
  ctq_loop p max_err MAX_N 1 none

/-- The source comparison `err <= max_err` lifted to an optional squared
error; `none` (no error measured) compares false, which is unreachable where
the source evaluates it. -/
def within (oe : Option ℚ) (max_err : ℚ) : Bool :=
  match oe with
  | some e => err_le e max_err
  | none => false

/-- The per-curve failure test of the batch driver's exhaustion path:
`s is None or error > max_err`. -/
def offending (s : Option (List Point)) (oe : Option ℚ) (max_err : ℚ) : Bool :=
  s.isNone || !(within oe max_err)

/-- The batch driver's per-iteration spline list,
`[cubic_approx_spline(c, n) for c in curves]`. -/
def batch_splines (curves : List Cubic) (n : ℕ) : List (Option (List Point)) :=
  curves.map fun c => cubic_approx_spline c n

/-- The batch driver's per-iteration (squared) error list,
`[curve_spline_dist(c, s) for c, s in zip(curves, splines)]` with the splines
of segment count n (each entry present exactly when its spline is). -/
def batch_errors (curves : List Cubic) (n : ℕ) : List (Option ℚ) :=
  List.zipWith (fun c s => s.map fun sp => curve_spline_dist_sq c sp) curves
    (batch_splines curves n)

/-- Search loop of `curves_to_quadratic`: at each n build all candidate
splines; if any is absent skip to the next n without computing errors;
otherwise compute all errors and stop when all tolerances hold.  On
exhaustion, raise for the first offending curve (in input order); the final
state holds each list from the last iteration that computed it. -/
def ctqs_loop (curves : List Cubic) (max_errors : List ℚ) :
    ℕ → ℕ → List (Option (List Point)) → List (Option ℚ) →
    Except ApproxNotFoundError (List (Option (List Point)) × List (Option ℚ))
  | 0, _, splines, errors =>
    match (curves.zip (splines.zip (errors.zip max_errors))).find?
        (fun q => offending q.2.1 q.2.2.1 q.2.2.2) with
    | some q => .error ⟨q.1, q.2.2.1⟩
    | none => .ok (splines, errors)
  | fuel + 1, n, _, errors =>
    let splines := batch_splines curves n
    if splines.all (fun s => s.isSome) then
      let errors' := batch_errors curves n
      if (List.zipWith within errors' max_errors).all id then .ok (splines, errors')
      else ctqs_loop curves max_errors fuel (n + 1) splines errors'
    else ctqs_loop curves max_errors fuel (n + 1) splines errors

/-- Source `curves_to_quadratic(curves, max_errors)`: find the smallest shared
segment count n within every curve's own tolerance.  Successful entries are
all `some`; the squared errors are returned (the source returns their square
roots). -/
def curves_to_quadratic (curves : List Cubic) (max_errors : List ℚ) :
    Except ApproxNotFoundError (List (Option (List Point)) × List (Option ℚ)) :=
  ctqs_loop curves max_errors MAX_N 1 (curves.map fun _ => none)
    (curves.map fun _ => none)

/-- The degenerate straight cubic `[(0,0),(1,0),(2,0),(3,0)]` named by the
spec: its endpoint tangent lines are parallel (coincident). -/
def lineCubic : Cubic := ⟨(0, 0), (1, 0), (2, 0), (3, 0)⟩

/-- The all-zero cubic, a degenerate curve used as a concrete witness input. -/
def zeroCubic : Cubic := ⟨(0, 0), (0, 0), (0, 0), (0, 0)⟩

/-- A genuinely curved ("true") cubic: a symmetric arch no quadratic spline
reproduces exactly. -/
def archCubic : Cubic := ⟨(0, 0), (0, 1), (1, 1), (1, 0)⟩

/-! Shape lemmas for the spline constructor. -/

theorem splitCubicGo_length :
    ∀ (fuel : ℕ) (p0 p1 p2 p3 : Point) (ts : List ℚ), ts.length ≤ fuel →
      (splitCubicGo fuel p0 p1 p2 p3 ts).length = ts.length + 1 := by
  intro fuel
  induction fuel with
  | zero =>
    intro p0 p1 p2 p3 ts h
    rw [List.length_eq_zero.mp (Nat.le_zero.mp h)]
    rfl
  | succ fuel ih =>
    intro p0 p1 p2 p3 ts h
    cases ts with
    | nil => rfl
    | cons t ts =>
      simp only [splitCubicGo, List.length_cons]
      rw [ih _ _ _ _ _ (by simpa using Nat.le_of_succ_le_succ h)]
      simp

theorem splitCubicAtT_length (p0 p1 p2 p3 : Point) (ts : List ℚ) :
    (splitCubicAtT p0 p1 p2 p3 ts).length = ts.length + 1 :=
  splitCubicGo_length ts.length p0 p1 p2 p3 ts le_rfl

theorem cubic_approx_spline_shape (p : Cubic) (n : ℕ) (hn : 1 ≤ n)
    (s : List Point) (h : cubic_approx_spline p n = some s) :
    s.length = n + 2 ∧ s.head? = some p.p0 ∧ s.getLast? = some p.p3 := by
  by_cases h1 : n = 1
  · subst h1
    unfold cubic_approx_spline at h
    simp only [if_pos rfl] at h
    cases hc : calc_intersect p with
    | none => rw [hc] at h; exact absurd h (by simp)
    | some q =>
      rw [hc] at h
      obtain rfl : [p.p0, q, p.p3] = s := by simpa using h
      refine ⟨rfl, rfl, ?_⟩
      simp [List.getLast?]
  · unfold cubic_approx_spline at h
    rw [if_neg h1] at h
    have hs := Option.some_inj.mp h
    subst hs
    refine ⟨?_, ?_, List.getLast?_concat _⟩
    · rw [List.length_append, List.length_cons, List.length_map,
        List.enum_length, splitCubicAtT_length, List.length_map,
        List.length_range', List.length_singleton]
      omega
    · rw [List.cons_append, List.head?_cons]

theorem cubic_approx_spline_isSome (p : Cubic) (n : ℕ) (hn : 2 ≤ n) :
    (cubic_approx_spline p n).isSome = true := by
  unfold cubic_approx_spline
  rw [if_neg (by omega)]
  rfl

/-! Nonnegativity and bridging lemmas for the sampled error. -/

theorem dist_sq_nonneg (p q : Point) : 0 ≤ dist_sq p q :=
  add_nonneg (sq_nonneg _) (sq_nonneg _)

theorem foldl_max_le_init {α : Type} (g : α → ℚ) :
    ∀ (l : List α) (e : ℚ), e ≤ l.foldl (fun acc j => max acc (g j)) e := by
  intro l
  induction l with
  | nil => intro e; exact le_rfl
  | cons a l ih => intro e; exact le_trans (le_max_left _ _) (ih _)

theorem le_csd_inner (b : Cubic) (seg : Point × Point × Point) (n steps i : ℕ)
    (e : ℚ) : e ≤ csd_inner b seg n steps i e :=
  foldl_max_le_init _ _ _

theorem le_csd_outer (b : Cubic) (s : List Point) (n steps : ℕ) :
    ∀ (count i : ℕ) (prev : Point × Point × Point) (e : ℚ),
      e ≤ csd_outer b s n steps count i prev e := by
  intro count
  induction count with
  | zero => intro i prev e; exact le_rfl
  | succ count ih =>
    intro i prev e
    exact le_trans (le_csd_inner _ _ _ _ _ _) (ih _ _ _)

theorem curve_spline_dist_sq_nonneg (b : Cubic) (s : List Point) :
    0 ≤ curve_spline_dist_sq b s :=
  le_csd_outer b s _ _ _ _ _ 0

theorem dist_eq_sqrt (p q : Point) :
    dist p q = Real.sqrt ((dist_sq p q : ℚ) : ℝ) := by
  unfold dist dist_sq
  congr 1
  push_cast
  ring

theorem real_sqrt_max (a b : ℝ) :
    Real.sqrt (max a b) = max (Real.sqrt a) (Real.sqrt b) :=
  Monotone.map_max fun _ _ h => Real.sqrt_le_sqrt h

theorem csd_inner_real_sqrt (b : Cubic) (seg : Point × Point × Point)
    (n steps i : ℕ) (e : ℚ) :
    csd_inner_real b seg n steps i (Real.sqrt (e : ℝ)) =
      Real.sqrt ((csd_inner b seg n steps i e : ℚ) : ℝ) := by
  unfold csd_inner_real csd_inner
  generalize List.range steps = l
  induction l generalizing e with
  | nil => rfl
  | cons j l ih =>
    simp only [List.foldl_cons]
    rw [dist_eq_sqrt, ← real_sqrt_max, ← Rat.cast_max, ih]

theorem csd_outer_real_sqrt (b : Cubic) (s : List Point) (n steps : ℕ) :
    ∀ (count i : ℕ) (prev : Point × Point × Point) (e : ℚ),
      csd_outer_real b s n steps count i prev (Real.sqrt (e : ℝ)) =
        Real.sqrt ((csd_outer b s n steps count i prev e : ℚ) : ℝ) := by
  intro count
  induction count with
  | zero => intro i prev e; rfl
  | succ count ih =>
    intro i prev e
    simp only [csd_outer_real, csd_outer]
    rw [csd_inner_real_sqrt, ih]

theorem curve_spline_dist_eq_sqrt (b : Cubic) (s : List Point) :
    curve_spline_dist b s = Real.sqrt ((curve_spline_dist_sq b s : ℚ) : ℝ) := by
  have h0 : Real.sqrt (((0 : ℚ) : ℝ)) = (0 : ℝ) := by
    rw [Rat.cast_zero, Real.sqrt_zero]
  show csd_outer_real b s (s.length - 2) (20 / (s.length - 2)) (s.length - 2) 1
      ((0, 0), (0, 0), (0, 0)) 0 =
    Real.sqrt ((csd_outer b s (s.length - 2) (20 / (s.length - 2)) (s.length - 2) 1
      ((0, 0), (0, 0), (0, 0)) 0 : ℚ) : ℝ)
  rw [← h0]
  exact csd_outer_real_sqrt _ _ _ _ _ _ _ _

theorem curve_spline_dist_nonneg (b : Cubic) (s : List Point) :
    0 ≤ curve_spline_dist b s := by
  rw [curve_spline_dist_eq_sqrt]; exact Real.sqrt_nonneg _

theorem err_le_iff (errSq max_err : ℚ) (h : 0 ≤ errSq) :
    err_le errSq max_err = true ↔
      Real.sqrt ((errSq : ℚ) : ℝ) ≤ ((max_err : ℚ) : ℝ) := by
  unfold err_le
  simp only [Bool.and_eq_true, decide_eq_true_eq]
  constructor
  · rintro ⟨h0, hle⟩
    calc Real.sqrt (errSq : ℝ) ≤ Real.sqrt (((max_err : ℝ)) ^ 2) := by
          apply Real.sqrt_le_sqrt
          exact_mod_cast hle
      _ = (max_err : ℝ) := Real.sqrt_sq (by exact_mod_cast h0)
  · intro hs
    have h0 : (0 : ℝ) ≤ (max_err : ℝ) := le_trans (Real.sqrt_nonneg _) hs
    refine ⟨by exact_mod_cast h0, ?_⟩
    have : ((errSq : ℚ) : ℝ) ≤ ((max_err : ℝ)) ^ 2 := by
      calc ((errSq : ℚ) : ℝ) = Real.sqrt ((errSq : ℚ) : ℝ) ^ 2 :=
            (Real.sq_sqrt (by exact_mod_cast h)).symm
        _ ≤ ((max_err : ℝ)) ^ 2 := by
            apply pow_le_pow_left₀ (Real.sqrt_nonneg _) hs
    exact_mod_cast this

/-! Single-curve driver lemmas. -/

theorem ctq_loop_step_none (p : Cubic) (m : ℚ) (fuel n : ℕ) (last : Option ℚ)
    (hnone : cubic_approx_spline p n = none) :
    ctq_loop p m (fuel + 1) n last = ctq_loop p m fuel (n + 1) last := by
  simp only [ctq_loop, hnone]

theorem ctq_loop_step_some (p : Cubic) (m : ℚ) (fuel n : ℕ) (last : Option ℚ)
    (s : List Point) (hs : cubic_approx_spline p n = some s) :
    ctq_loop p m (fuel + 1) n last =
      if err_le (curve_spline_dist_sq p s) m then .ok (s, curve_spline_dist_sq p s)
      else ctq_loop p m fuel (n + 1) (some (curve_spline_dist_sq p s)) := by
  simp only [ctq_loop, hs]

theorem ctq_loop_ok (p : Cubic) (m : ℚ) :
    ∀ (fuel n0 : ℕ) (last : Option ℚ) (s : List Point) (e : ℚ),
      ctq_loop p m fuel n0 last = .ok (s, e) →
      ∃ n, n0 ≤ n ∧ n < n0 + fuel ∧ cubic_approx_spline p n = some s ∧
        e = curve_spline_dist_sq p s ∧ err_le e m = true ∧
        ∀ k s', n0 ≤ k → k < n → cubic_approx_spline p k = some s' →
          err_le (curve_spline_dist_sq p s') m = false := by
  intro fuel
  induction fuel with
  | zero =>
    intro n0 last s e h
    exact absurd h (by simp [ctq_loop])
  | succ fuel ih =>
    intro n0 last s e h
    cases hc : cubic_approx_spline p n0 with
    | none =>
      rw [ctq_loop_step_none p m fuel n0 last hc] at h
      obtain ⟨n, h1, h2, h3, h4, h5, h6⟩ := ih (n0 + 1) last s e h
      refine ⟨n, by omega, by omega, h3, h4, h5, ?_⟩
      intro k s' hk1 hk2 hks
      rcases Nat.eq_or_lt_of_le hk1 with hk | hk
      · rw [← hk, hc] at hks; cases hks
      · exact h6 k s' hk hk2 hks
    | some sp =>
      rw [ctq_loop_step_some p m fuel n0 last sp hc] at h
      by_cases hw : err_le (curve_spline_dist_sq p sp) m = true
      · rw [if_pos hw] at h
        obtain ⟨rfl, rfl⟩ : sp = s ∧ curve_spline_dist_sq p sp = e := by
          simpa using h
        exact ⟨n0, le_rfl, by omega, hc, rfl, hw, fun k s' hk1 hk2 _ => by omega⟩
      · rw [if_neg hw] at h
        obtain ⟨n, h1, h2, h3, h4, h5, h6⟩ := ih (n0 + 1) (some _) s e h
        refine ⟨n, by omega, by omega, h3, h4, h5, ?_⟩
        intro k s' hk1 hk2 hks
        rcases Nat.eq_or_lt_of_le hk1 with hk | hk
        · rw [← hk, hc] at hks
          obtain rfl : sp = s' := by simpa using hks
          exact Bool.not_eq_true _ ▸ Bool.of_not_eq_true hw
        · exact h6 k s' hk hk2 hks

/-- C1: whenever `curve_to_quadratic p max_err` (with `max_err ≥ 0`) returns a
pair `(spline, errSq)`, the reported error `Real.sqrt errSq` is exactly
`curve_spline_dist p spline`, and that sampled error is at most `max_err`:
the search never returns a spline whose sampled error exceeds the
tolerance. -/
theorem curve_to_quadratic_error_le (p : Cubic) (max_err : ℚ)
    (_hm : 0 ≤ max_err) (s : List Point) (errSq : ℚ)
    (h : curve_to_quadratic p max_err = .ok (s, errSq)) :
    Real.sqrt ((errSq : ℚ) : ℝ) = curve_spline_dist p s ∧
      curve_spline_dist p s ≤ ((max_err : ℚ) : ℝ) := by
  obtain ⟨n, _, _, _, he, hw, _⟩ := ctq_loop_ok p max_err MAX_N 1 none s errSq h
  have hsqrt : Real.sqrt ((errSq : ℚ) : ℝ) = curve_spline_dist p s := by
    rw [he, ← curve_spline_dist_eq_sqrt]
  refine ⟨hsqrt, ?_⟩
  rw [← hsqrt]
  exact (err_le_iff errSq max_err (he ▸ curve_spline_dist_sq_nonneg p s)).mp hw

/-- C3: when `curve_to_quadratic` succeeds, the returned spline comes from the
smallest segment count n in 1..MAX_N whose constructed spline has sampled
error within tolerance — the search stops at the first satisfying n, not at
the n of smallest error. -/
theorem curve_to_quadratic_min_n (p : Cubic) (max_err : ℚ) (s : List Point)
    (errSq : ℚ) (h : curve_to_quadratic p max_err = .ok (s, errSq)) :
    ∃ n, 1 ≤ n ∧ n ≤ MAX_N ∧ cubic_approx_spline p n = some s ∧
      s.length = n + 2 ∧ curve_spline_dist p s ≤ ((max_err : ℚ) : ℝ) ∧
      ∀ k s', 1 ≤ k → k < n → cubic_approx_spline p k = some s' →
        ¬ (curve_spline_dist p s' ≤ ((max_err : ℚ) : ℝ)) := by
  obtain ⟨n, h1, h2, h3, h4, h5, h6⟩ := ctq_loop_ok p max_err MAX_N 1 none s errSq h
  refine ⟨n, h1, by omega, h3, (cubic_approx_spline_shape p n h1 s h3).1, ?_, ?_⟩
  · rw [curve_spline_dist_eq_sqrt, ← h4]
    exact (err_le_iff errSq max_err (h4 ▸ curve_spline_dist_sq_nonneg p s)).mp h5
  · intro k s' hk1 hk2 hks hle
    have hfalse := h6 k s' hk1 hk2 hks
    have htrue : err_le (curve_spline_dist_sq p s') max_err = true := by
      rw [err_le_iff _ _ (curve_spline_dist_sq_nonneg p s')]
      rw [← curve_spline_dist_eq_sqrt]
      exact hle
    rw [htrue] at hfalse
    cases hfalse

/-! Parallel-tangent behaviour of the constructor. -/

theorem cubic_approx_spline_one_none_iff (p : Cubic) :
    cubic_approx_spline p 1 = none ↔
      dot (-(vector p.p0 p.p1).2, (vector p.p0 p.p1).1) (vector p.p2 p.p3) = 0 := by
  by_cases hd :
      dot (-(vector p.p0 p.p1).2, (vector p.p0 p.p1).1) (vector p.p2 p.p3) = 0
  · simp [cubic_approx_spline, calc_intersect, hd]
  · simp [cubic_approx_spline, calc_intersect, hd]

theorem cubic_approx_spline_two_le_ne_none (p : Cubic) (n : ℕ) (hn : 2 ≤ n) :
    cubic_approx_spline p n ≠ none := by
  intro h
  have hi := cubic_approx_spline_isSome p n hn
  rw [h] at hi
  simp at hi

/-- C4: for n = 1 the constructor returns an absent result exactly when the
normal of the first tangent is orthogonal to the second tangent direction
(`dot((-ab.y, ab.x), cd) = 0`, i.e. parallel tangent lines); for every n ≥ 2
it always returns a spline; and the degenerate straight cubic
`[(0,0),(1,0),(2,0),(3,0)]` yields an absent result at n = 1. -/
theorem cubic_approx_spline_parallel_condition :
    (∀ p : Cubic,
      (cubic_approx_spline p 1 = none ↔
        dot (-(vector p.p0 p.p1).2, (vector p.p0 p.p1).1) (vector p.p2 p.p3) = 0) ∧
      ∀ n, 2 ≤ n → cubic_approx_spline p n ≠ none) ∧
    cubic_approx_spline lineCubic 1 = none :=
  ⟨fun p => ⟨cubic_approx_spline_one_none_iff p,
    fun n hn => cubic_approx_spline_two_le_ne_none p n hn⟩, by with_unfolding_all rfl⟩

/-! Degenerate sampling for splines of more than 20 segments. -/

theorem csd_outer_steps_zero (b : Cubic) (s : List Point) (n : ℕ) :
    ∀ (count i : ℕ) (prev : Point × Point × Point) (e : ℚ),
      csd_outer b s n 0 count i prev e = e := by
  intro count
  induction count with
  | zero => intro i prev e; rfl
  | succ count ih =>
    intro i prev e
    simp only [csd_outer]
    exact (ih _ _ _).trans rfl

theorem curve_spline_dist_sq_eq_zero_of_many (b : Cubic) (s : List Point)
    (n : ℕ) (hlen : s.length = n + 2) (h21 : 21 ≤ n) :
    curve_spline_dist_sq b s = 0 := by
  show csd_outer b s (s.length - 2) (20 / (s.length - 2)) (s.length - 2) 1
      ((0, 0), (0, 0), (0, 0)) 0 = 0
  rw [hlen, show n + 2 - 2 = n from by omega, Nat.div_eq_of_lt (by omega)]
  exact csd_outer_steps_zero b s n n 1 _ 0

/-- C10: for a candidate spline of n ≥ 21 segments (length n + 2), the
per-segment step count 20 / n is 0 by integer division, no sample is taken,
and `curve_spline_dist` returns 0 regardless of the actual deviation; hence
such a candidate passes every nonnegative tolerance. -/
theorem curve_spline_dist_zero_of_many_segments (b : Cubic) (s : List Point)
    (n : ℕ) (hlen : s.length = n + 2) (h21 : 21 ≤ n) :
    curve_spline_dist_sq b s = 0 ∧ curve_spline_dist b s = 0 ∧
      ∀ tol : ℚ, 0 ≤ tol → err_le (curve_spline_dist_sq b s) tol = true := by
  have h0 := curve_spline_dist_sq_eq_zero_of_many b s n hlen h21
  refine ⟨h0, ?_, ?_⟩
  · rw [curve_spline_dist_eq_sqrt, h0]
    simp
  · intro tol ht
    rw [h0]
    simp [err_le, ht, sq_nonneg]

/-! Straight-line cubics. -/

/-- C5 counterexample: for the straight-line cubic `[(0,0),(1,0),(2,0),(3,0)]`
the constructor yields no spline at n = 1 (so no tolerance makes n = 1
succeed), and even with the generous tolerance 1 the search returns a
four-point spline (n = 2), not a three-point one. -/
theorem straight_line_not_three_points :
    cubic_approx_spline lineCubic 1 = none ∧
    curve_to_quadratic lineCubic 1 =
      .ok ([((0 : ℚ), (0 : ℚ)), (3 / 4, 0), (9 / 4, 0), (3, 0)], 0) ∧
    ([((0 : ℚ), (0 : ℚ)), (3 / 4, 0), (9 / 4, 0), (3, 0)] : List Point).length ≠ 3 := by
  refine ⟨by with_unfolding_all rfl, ?_, by norm_num⟩
  set_option maxRecDepth 100000 in with_unfolding_all rfl

/-- C5 (amended): a straight-line cubic (colinear control points) always has
parallel endpoint tangent lines, so the constructor never yields a 1-segment
spline for it; for the canonical straight cubic and every nonnegative
tolerance, `curve_to_quadratic` succeeds at n = 2 with a spline of exactly 4
points and sampled error 0. -/
theorem straight_line_n2_success :
    (∀ p : Cubic,
      dot (-(vector p.p0 p.p1).2, (vector p.p0 p.p1).1) (vector p.p0 p.p2) = 0 →
      dot (-(vector p.p0 p.p1).2, (vector p.p0 p.p1).1) (vector p.p0 p.p3) = 0 →
      cubic_approx_spline p 1 = none) ∧
    ∀ tol : ℚ, 0 ≤ tol →
      curve_to_quadratic lineCubic tol =
        .ok ([((0 : ℚ), (0 : ℚ)), (3 / 4, 0), (9 / 4, 0), (3, 0)], 0) := by
  constructor
  · intro p h2 h3
    rw [cubic_approx_spline_one_none_iff]
    simp only [dot, vector] at h2 h3 ⊢
    linear_combination h3 - h2
  · intro tol htol
    show ctq_loop lineCubic tol (99 + 1) 1 none = _
    rw [ctq_loop_step_none lineCubic tol 99 1 none (by with_unfolding_all rfl)]
    show ctq_loop lineCubic tol (98 + 1) 2 none = _
    rw [ctq_loop_step_some lineCubic tol 98 2 none
      [((0 : ℚ), (0 : ℚ)), (3 / 4, 0), (9 / 4, 0), (3, 0)]
      (by with_unfolding_all rfl)]
    rw [show curve_spline_dist_sq lineCubic
        [((0 : ℚ), (0 : ℚ)), (3 / 4, 0), (9 / 4, 0), (3, 0)] = 0 from by
      set_option maxRecDepth 100000 in with_unfolding_all rfl]
    rw [if_pos (by simp [err_le, htol, sq_nonneg])]

/-! The tangent-intersection formula. -/

/-- Modelled from the spec claim's words, for refinement comparison only: like
`calc_intersect` but with the numerator of h taken as `dot(p, c - a)` exactly
as the claim states it, instead of the source's `dot(p, vector(c, a))`
(which is `dot(p, a - c)`). -/
def calc_intersect_claim (q : Cubic) : Option Point :=
  let a := q.p0
  let b := q.p1
  let c := q.p2
  let d := q.p3
  let ab := vector a b
  let cd := vector c d
  let p : Point := (-ab.2, ab.1)
  if dot p cd = 0 then none
  else some (translate c (scale cd (dot p (vector a c) / dot p cd)))

/-- A concrete intersection query: lines through (0,0),(1,1) and through
(0,2),(2,0), which intersect at (1,1). -/
def testQuad : Cubic := ⟨(0, 0), (1, 1), (0, 2), (2, 0)⟩

/-- C6 counterexample: the code computes h with numerator
`dot(p, vector(c, a)) = dot(p, a - c)`, not the claim's `dot(p, c - a)`: on a
concrete input the code returns the true intersection (1,1) while the claim's
formula yields (-1,3). -/
theorem calc_intersect_claim_formula_wrong :
    calc_intersect testQuad = some (1, 1) ∧
    calc_intersect_claim testQuad = some (-1, 3) ∧
    calc_intersect testQuad ≠ calc_intersect_claim testQuad := by
  exact ⟨by with_unfolding_all rfl, by with_unfolding_all rfl,
    by with_unfolding_all decide⟩

theorem intersect_on_line (u v a1 a2 c1 c2 e1 e2 : ℚ)
    (hk : u * e1 + v * e2 ≠ 0) :
    u * (c1 + e1 * ((u * (a1 - c1) + v * (a2 - c2)) / (u * e1 + v * e2)) - a1) +
      v * (c2 + e2 * ((u * (a1 - c1) + v * (a2 - c2)) / (u * e1 + v * e2)) - a2) =
      0 := by
  have expand :
      u * (c1 + e1 * ((u * (a1 - c1) + v * (a2 - c2)) / (u * e1 + v * e2)) - a1) +
        v * (c2 + e2 * ((u * (a1 - c1) + v * (a2 - c2)) / (u * e1 + v * e2)) - a2) =
      (u * (c1 - a1) + v * (c2 - a2)) +
        (u * (a1 - c1) + v * (a2 - c2)) / (u * e1 + v * e2) * (u * e1 + v * e2) := by
    ring
  rw [expand, div_mul_cancel₀ _ hk]
  ring

/-- C6 (amended): for non-parallel lines (nonzero denominator),
`calc_intersect` computes the normal `p = (-ab.y, ab.x)` of `ab = b - a`, sets
`h = dot(p, a - c) / dot(p, cd)` with `cd = d - c`, and returns `c + h*cd`; the
returned point lies on the line through a and b (its offset from a is
orthogonal to the normal p). -/
theorem calc_intersect_formula (a b c d : Point)
    (hd : dot (-(vector a b).2, (vector a b).1) (vector c d) ≠ 0) :
    calc_intersect ⟨a, b, c, d⟩ =
      some (translate c (scale (vector c d)
        (dot (-(vector a b).2, (vector a b).1) (vector c a) /
         dot (-(vector a b).2, (vector a b).1) (vector c d)))) ∧
    dot (-(vector a b).2, (vector a b).1)
      (vector a (translate c (scale (vector c d)
        (dot (-(vector a b).2, (vector a b).1) (vector c a) /
         dot (-(vector a b).2, (vector a b).1) (vector c d))))) = 0 := by
  constructor
  · show (if dot (-(vector a b).2, (vector a b).1) (vector c d) = 0 then none
      else some (translate c (scale (vector c d)
        (dot (-(vector a b).2, (vector a b).1) (vector c a) /
         dot (-(vector a b).2, (vector a b).1) (vector c d))))) = _
    rw [if_neg hd]
  · simp only [dot, vector, translate, scale] at hd ⊢
    exact intersect_on_line (-(b.2 - a.2)) (b.1 - a.1) a.1 a.2 c.1 c.2
      (d.1 - c.1) (d.2 - c.2) hd

/-! Behaviour of the search with unattainable tolerance 0. -/

/-- The failure test of one search step of `curve_to_quadratic`: at segment
count n the attempt fails when no spline is constructed or when its sampled
error exceeds the tolerance. -/
def attempt_fails (p : Cubic) (max_err : ℚ) (n : ℕ) : Bool :=
  match cubic_approx_spline p n with
  | none => true
  | some s => !(err_le (curve_spline_dist_sq p s) max_err)

theorem ctq_loop_reaches_21 (p : Cubic) :
    ∀ (d n0 : ℕ) (last : Option ℚ), n0 + d = 21 → 1 ≤ n0 →
      (∀ k, n0 ≤ k → k < 21 → attempt_fails p 0 k = true) →
      ∃ s, cubic_approx_spline p 21 = some s ∧
        ctq_loop p 0 (d + 80) n0 last = .ok (s, 0) := by
  intro d
  induction d with
  | zero =>
    intro n0 last h21 h1 hf
    obtain rfl : n0 = 21 := by omega
    obtain ⟨s, hs⟩ := Option.isSome_iff_exists.mp
      (cubic_approx_spline_isSome p 21 (by norm_num))
    have hlen : s.length = 21 + 2 :=
      (cubic_approx_spline_shape p 21 (by norm_num) s hs).1
    have h0 : curve_spline_dist_sq p s = 0 :=
      curve_spline_dist_sq_eq_zero_of_many p s 21 hlen le_rfl
    refine ⟨s, hs, ?_⟩
    show ctq_loop p 0 (79 + 1) 21 last = _
    rw [ctq_loop_step_some p 0 79 21 last s hs, h0,
      if_pos (by simp [err_le])]
  | succ d ih =>
    intro n0 last h21 h1 hf
    have hn0 : n0 < 21 := by omega
    cases hc : cubic_approx_spline p n0 with
    | none =>
      obtain ⟨s, hs, hloop⟩ := ih (n0 + 1) last (by omega) (by omega)
        (fun k hk1 hk2 => hf k (by omega) hk2)
      refine ⟨s, hs, ?_⟩
      show ctq_loop p 0 ((d + 80) + 1) n0 last = _
      rw [ctq_loop_step_none p 0 (d + 80) n0 last hc]
      exact hloop
    | some sp =>
      have hfail := hf n0 le_rfl hn0
      simp only [attempt_fails, hc, Bool.not_eq_true'] at hfail
      obtain ⟨s, hs, hloop⟩ := ih (n0 + 1) (some (curve_spline_dist_sq p sp))
        (by omega) (by omega) (fun k hk1 hk2 => hf k (by omega) hk2)
      refine ⟨s, hs, ?_⟩
      show ctq_loop p 0 ((d + 80) + 1) n0 last = _
      rw [ctq_loop_step_some p 0 (d + 80) n0 last sp hc,
        if_neg (by simp [hfail])]
      exact hloop

/-- C7 (amended): for a curve whose sampled error is positive at every
attempted segment count up to 20 and exact tolerance 0, `curve_to_quadratic`
does not exhaust the cap of 100: the sampler takes no samples for n ≥ 21
(20 / n = 0), so the search succeeds at n = 21, returning that spline (of 23
points) with reported error 0. -/
theorem curve_to_quadratic_zero_tolerance_hits_21 (p : Cubic)
    (hf : ∀ k, k < 21 → 1 ≤ k → attempt_fails p 0 k = true) :
    ∃ s, cubic_approx_spline p 21 = some s ∧ s.length = 23 ∧
      curve_to_quadratic p 0 = .ok (s, 0) := by
  obtain ⟨s, hs, hloop⟩ := ctq_loop_reaches_21 p 20 1 none (by norm_num) le_rfl
    (fun k hk1 hk2 => hf k hk2 hk1)
  exact ⟨s, hs, (cubic_approx_spline_shape p 21 (by norm_num) s hs).1, hloop⟩

set_option maxRecDepth 2000000 in
set_option maxHeartbeats 4000000 in
theorem arch_attempts_fail :
    ∀ k, k < 21 → 1 ≤ k → attempt_fails archCubic 0 k = true := by
  with_unfolding_all decide

set_option maxRecDepth 2000000 in
set_option maxHeartbeats 4000000 in
theorem arch_hits_21_eval :
    curve_to_quadratic archCubic 0 =
      .ok ((cubic_approx_spline archCubic 21).getD [], 0) := by
  with_unfolding_all rfl

/-- C7 counterexample: the arch cubic has a strictly positive sampled error at
every segment count 1..20 (tolerance 0 is unattainable there), yet
`curve_to_quadratic` with max_error = 0 does not fail by exhausting the cap:
it returns the 21-segment spline with reported error 0. -/
theorem arch_zero_tolerance_succeeds :
    (∀ k, k < 21 → 1 ≤ k → attempt_fails archCubic 0 k = true) ∧
    curve_to_quadratic archCubic 0 =
      .ok ((cubic_approx_spline archCubic 21).getD [], 0) :=
  ⟨arch_attempts_fail, arch_hits_21_eval⟩

/-! The claims about the constructor's shape. -/

/-- C2: whenever `cubic_approx_spline p n` (n ≥ 1) returns a spline, it has
exactly n + 2 points, its first point is the cubic's first point and its last
point is the cubic's last point. -/
theorem cubic_approx_spline_endpoints (p : Cubic) (n : ℕ) (hn : 1 ≤ n)
    (s : List Point) (h : cubic_approx_spline p n = some s) :
    s.length = n + 2 ∧ s.head? = some p.p0 ∧ s.getLast? = some p.p3 :=
  cubic_approx_spline_shape p n hn s h

/-! Witnesses: concrete instantiations of the conditional theorems. -/

theorem curve_to_quadratic_error_le_witness :
    (0 : ℚ) ≤ 1 ∧
    (Real.sqrt (((0 : ℚ) : ℝ)) =
        curve_spline_dist lineCubic
          [((0 : ℚ), (0 : ℚ)), (3 / 4, 0), (9 / 4, 0), (3, 0)] ∧
      curve_spline_dist lineCubic
          [((0 : ℚ), (0 : ℚ)), (3 / 4, 0), (9 / 4, 0), (3, 0)] ≤
        ((1 : ℚ) : ℝ)) :=
  ⟨by norm_num, curve_to_quadratic_error_le lineCubic 1 (by norm_num) _ 0
    (by set_option maxRecDepth 100000 in with_unfolding_all rfl)⟩

theorem cubic_approx_spline_endpoints_witness :
    ([((0 : ℚ), (0 : ℚ)), (3 / 4, 0), (9 / 4, 0), (3, 0)] : List Point).length =
        2 + 2 ∧
      ([((0 : ℚ), (0 : ℚ)), (3 / 4, 0), (9 / 4, 0), (3, 0)] : List Point).head? =
        some lineCubic.p0 ∧
      ([((0 : ℚ), (0 : ℚ)), (3 / 4, 0), (9 / 4, 0), (3, 0)] : List Point).getLast? =
        some lineCubic.p3 :=
  cubic_approx_spline_endpoints lineCubic 2 (by norm_num) _
    (by with_unfolding_all rfl)

theorem curve_to_quadratic_min_n_witness :
    ∃ n, 1 ≤ n ∧ n ≤ MAX_N ∧
      cubic_approx_spline lineCubic n =
        some [((0 : ℚ), (0 : ℚ)), (3 / 4, 0), (9 / 4, 0), (3, 0)] ∧
      ([((0 : ℚ), (0 : ℚ)), (3 / 4, 0), (9 / 4, 0), (3, 0)] : List Point).length =
        n + 2 ∧
      curve_spline_dist lineCubic
          [((0 : ℚ), (0 : ℚ)), (3 / 4, 0), (9 / 4, 0), (3, 0)] ≤ ((1 : ℚ) : ℝ) ∧
      ∀ k s', 1 ≤ k → k < n → cubic_approx_spline lineCubic k = some s' →
        ¬ (curve_spline_dist lineCubic s' ≤ ((1 : ℚ) : ℝ)) :=
  curve_to_quadratic_min_n lineCubic 1 _ 0
    (by set_option maxRecDepth 100000 in with_unfolding_all rfl)

theorem cubic_approx_spline_parallel_condition_witness :
    cubic_approx_spline lineCubic 2 ≠ none :=
  (cubic_approx_spline_parallel_condition.1 lineCubic).2 2 (by norm_num)

theorem straight_line_n2_success_witness :
    cubic_approx_spline lineCubic 1 = none ∧
    curve_to_quadratic lineCubic 1 =
      .ok ([((0 : ℚ), (0 : ℚ)), (3 / 4, 0), (9 / 4, 0), (3, 0)], 0) :=
  ⟨straight_line_n2_success.1 lineCubic (by with_unfolding_all rfl)
      (by with_unfolding_all rfl),
    straight_line_n2_success.2 1 (by norm_num)⟩

theorem calc_intersect_formula_witness :
    calc_intersect ⟨(0, 0), (1, 1), (0, 2), (2, 0)⟩ =
      some (translate (0, 2) (scale (vector (0, 2) (2, 0))
        (dot (-(vector (0, 0) (1, 1)).2, (vector (0, 0) (1, 1)).1)
            (vector (0, 2) (0, 0)) /
         dot (-(vector (0, 0) (1, 1)).2, (vector (0, 0) (1, 1)).1)
            (vector (0, 2) (2, 0))))) ∧
    dot (-(vector (0, 0) (1, 1)).2, (vector (0, 0) (1, 1)).1)
      (vector (0, 0) (translate (0, 2) (scale (vector (0, 2) (2, 0))
        (dot (-(vector (0, 0) (1, 1)).2, (vector (0, 0) (1, 1)).1)
            (vector (0, 2) (0, 0)) /
         dot (-(vector (0, 0) (1, 1)).2, (vector (0, 0) (1, 1)).1)
            (vector (0, 2) (2, 0)))))) = 0 :=
  calc_intersect_formula (0, 0) (1, 1) (0, 2) (2, 0)
    (by with_unfolding_all decide)

theorem curve_to_quadratic_zero_tolerance_hits_21_witness :
    ∃ s, cubic_approx_spline archCubic 21 = some s ∧ s.length = 23 ∧
      curve_to_quadratic archCubic 0 = .ok (s, 0) :=
  curve_to_quadratic_zero_tolerance_hits_21 archCubic arch_attempts_fail

theorem curve_spline_dist_zero_of_many_segments_witness :
    curve_spline_dist_sq zeroCubic (List.replicate 23 ((0, 0) : Point)) = 0 ∧
    curve_spline_dist zeroCubic (List.replicate 23 ((0, 0) : Point)) = 0 ∧
    err_le (curve_spline_dist_sq zeroCubic (List.replicate 23 ((0, 0) : Point))) 1 =
      true := by
  have h := curve_spline_dist_zero_of_many_segments zeroCubic
    (List.replicate 23 ((0, 0) : Point)) 21 (by norm_num) le_rfl
  exact ⟨h.1, h.2.1, h.2.2 1 (by norm_num)⟩

/-! Batch driver lemmas. -/

/-- The batch driver's success test at segment count n: every curve has a
candidate spline and every error is within its own tolerance. -/
def batch_ok (curves : List Cubic) (max_errors : List ℚ) (n : ℕ) : Bool :=
  (batch_splines curves n).all (fun s => s.isSome) &&
    (List.zipWith within (batch_errors curves n) max_errors).all id

theorem batch_splines_all_isSome (curves : List Cubic) (n : ℕ) (hn : 2 ≤ n) :
    (batch_splines curves n).all (fun s => s.isSome) = true := by
  rw [List.all_eq_true]
  intro s hs
  rw [batch_splines, List.mem_map] at hs
  obtain ⟨c, _, rfl⟩ := hs
  exact cubic_approx_spline_isSome c n hn

theorem batch_splines_length (curves : List Cubic) (n : ℕ) :
    (batch_splines curves n).length = curves.length :=
  List.length_map _ _

theorem batch_errors_length (curves : List Cubic) (n : ℕ) :
    (batch_errors curves n).length = curves.length := by
  rw [batch_errors, List.length_zipWith, batch_splines_length, min_self]

theorem find_offender_of_not_all_within :
    ∀ (E : List (Option ℚ)) (curves : List Cubic)
      (S : List (Option (List Point))) (M : List ℚ),
      E.length ≤ curves.length → E.length ≤ S.length →
      (List.zipWith within E M).all id = false →
      ((curves.zip (S.zip (E.zip M))).find?
        (fun q => offending q.2.1 q.2.2.1 q.2.2.2)).isSome = true := by
  intro E
  induction E with
  | nil => intro curves S M _ _ hfalse; simp at hfalse
  | cons e E ih =>
    intro curves S M hc hS hfalse
    cases M with
    | nil => simp at hfalse
    | cons m M =>
      cases curves with
      | nil => simp at hc
      | cons c curves =>
        cases S with
        | nil => simp at hS
        | cons s S =>
          simp only [List.zipWith_cons_cons, List.all_cons, Bool.and_eq_false_iff,
            id_eq] at hfalse
          simp only [List.zip_cons_cons]
          cases hp : offending s e m with
          | true =>
            have hsome : ((c, s, e, m) :: curves.zip (S.zip (E.zip M))).find?
                (fun q => offending q.2.1 q.2.2.1 q.2.2.2) = some (c, s, e, m) :=
              List.find?_cons_of_pos _ (by simpa using hp)
            rw [hsome]
            rfl
          | false =>
            have hstep : ((c, s, e, m) :: curves.zip (S.zip (E.zip M))).find?
                (fun q => offending q.2.1 q.2.2.1 q.2.2.2) =
                (curves.zip (S.zip (E.zip M))).find?
                  (fun q => offending q.2.1 q.2.2.1 q.2.2.2) :=
              List.find?_cons_of_neg _ (by simpa using hp)
            rw [hstep]
            have hw : within e m = true := by
              by_contra hcon
              have hfw : within e m = false := Bool.eq_false_iff.mpr hcon
              simp [offending, hfw] at hp
            rcases hfalse with h | h
            · rw [hw] at h; cases h
            · exact ih curves S M (by simpa using Nat.le_of_succ_le_succ hc)
                (by simpa using Nat.le_of_succ_le_succ hS) h

theorem find_first {α : Type} (p : α → Bool) (d : α) :
    ∀ (l : List α) (a : α), l.find? p = some a →
      ∃ i, i < l.length ∧ l.getD i d = a ∧ p a = true ∧
        ∀ j, j < i → p (l.getD j d) = false := by
  intro l
  induction l with
  | nil => intro a h; cases h
  | cons b t ih =>
    intro a h
    cases hp : p b with
    | true =>
      rw [List.find?_cons_of_pos _ hp] at h
      obtain rfl : b = a := by simpa using h
      exact ⟨0, by simp, rfl, hp, fun j hj => by omega⟩
    | false =>
      rw [List.find?_cons_of_neg _ (by rw [hp]; exact Bool.false_ne_true)] at h
      obtain ⟨i, h1, h2, h3, h4⟩ := ih a h
      refine ⟨i + 1, by simpa using h1, by simpa using h2, h3, ?_⟩
      intro j hj
      cases j with
      | zero => simpa using hp
      | succ j => simpa using h4 j (by omega)

theorem zip_getD {α β : Type} (l1 : List α) (l2 : List β) (i : ℕ)
    (d1 : α) (d2 : β) (h1 : i < l1.length) (h2 : i < l2.length) :
    (l1.zip l2).getD i (d1, d2) = (l1.getD i d1, l2.getD i d2) := by
  rw [List.getD_eq_getElem l1 d1 h1, List.getD_eq_getElem l2 d2 h2,
    List.getD_eq_getElem _ _ (by rw [List.length_zip]; omega),
    List.getElem_zip]

theorem all_within_getD :
    ∀ (E : List (Option ℚ)) (M : List ℚ),
      (List.zipWith within E M).all id = true →
      ∀ i, i < E.length → i < M.length →
        within (E.getD i none) (M.getD i 0) = true := by
  intro E
  induction E with
  | nil => intro M _ i hi; simp at hi
  | cons e E ih =>
    intro M hall i hiE hiM
    cases M with
    | nil => simp at hiM
    | cons m M =>
      simp only [List.zipWith_cons_cons, List.all_cons, Bool.and_eq_true,
        id_eq] at hall
      cases i with
      | zero => simpa using hall.1
      | succ i =>
        simpa using ih M hall.2 i (by simpa using Nat.lt_of_succ_lt_succ hiE)
          (by simpa using Nat.lt_of_succ_lt_succ hiM)

theorem ctqs_loop_ok (curves : List Cubic) (M : List ℚ) :
    ∀ (fuel n0 : ℕ) (sp0 : List (Option (List Point))) (er0 : List (Option ℚ))
      (splines : List (Option (List Point))) (errors : List (Option ℚ)),
      1 ≤ fuel → 2 ≤ n0 + fuel - 1 →
      ctqs_loop curves M fuel n0 sp0 er0 = .ok (splines, errors) →
      ∃ n, n0 ≤ n ∧ n ≤ n0 + fuel - 1 ∧ splines = batch_splines curves n ∧
        errors = batch_errors curves n ∧
        (batch_splines curves n).all (fun s => s.isSome) = true ∧
        (List.zipWith within (batch_errors curves n) M).all id = true ∧
        ∀ k, n0 ≤ k → k < n → batch_ok curves M k = false := by
  intro fuel
  induction fuel with
  | zero => intro n0 sp0 er0 splines errors h1 _ _; omega
  | succ fuel ih =>
    intro n0 sp0 er0 splines errors _ hn2 h
    simp only [ctqs_loop] at h
    by_cases hall : (batch_splines curves n0).all (fun s => s.isSome) = true
    · rw [if_pos hall] at h
      by_cases hwit :
          (List.zipWith within (batch_errors curves n0) M).all id = true
      · rw [if_pos hwit] at h
        obtain ⟨rfl, rfl⟩ : batch_splines curves n0 = splines ∧
            batch_errors curves n0 = errors := by simpa using h
        exact ⟨n0, le_rfl, by omega, rfl, rfl, hall, hwit,
          fun k hk1 hk2 => by omega⟩
      · rw [if_neg hwit] at h
        cases fuel with
        | zero =>
          exfalso
          simp only [ctqs_loop] at h
          have hfind := find_offender_of_not_all_within (batch_errors curves n0)
            curves (batch_splines curves n0) M
            (le_of_eq (batch_errors_length curves n0))
            (by rw [batch_errors_length, batch_splines_length])
            (Bool.eq_false_iff.mpr hwit)
          obtain ⟨q, hq⟩ := Option.isSome_iff_exists.mp hfind
          simp only [hq] at h
          cases h
        | succ fuel =>
          obtain ⟨n, h1, h2, h3, h4, h5, h6, h7⟩ := ih (n0 + 1)
            (batch_splines curves n0) (batch_errors curves n0) splines errors
            (by omega) (by omega) h
          refine ⟨n, by omega, by omega, h3, h4, h5, h6, ?_⟩
          intro k hk1 hk2
          rcases Nat.eq_or_lt_of_le hk1 with hk | hk
          · rw [← hk, batch_ok, hall]
            simpa using Bool.eq_false_iff.mpr hwit
          · exact h7 k hk hk2
    · rw [if_neg hall] at h
      cases fuel with
      | zero =>
        exfalso
        have hn0 : 2 ≤ n0 := by omega
        exact hall (batch_splines_all_isSome curves n0 hn0)
      | succ fuel =>
        obtain ⟨n, h1, h2, h3, h4, h5, h6, h7⟩ := ih (n0 + 1)
          (batch_splines curves n0) er0 splines errors (by omega) (by omega) h
        refine ⟨n, by omega, by omega, h3, h4, h5, h6, ?_⟩
        intro k hk1 hk2
        rcases Nat.eq_or_lt_of_le hk1 with hk | hk
        · rw [← hk, batch_ok]
          simp [Bool.eq_false_iff.mpr hall]
        · exact h7 k hk hk2

theorem ctqs_loop_error (curves : List Cubic) (M : List ℚ)
    (err : ApproxNotFoundError) :
    ∀ (fuel n0 : ℕ) (sp0 : List (Option (List Point))) (er0 : List (Option ℚ)),
      1 ≤ fuel → 2 ≤ n0 + fuel - 1 →
      ctqs_loop curves M fuel n0 sp0 er0 = .error err →
      ∃ q, (curves.zip ((batch_splines curves (n0 + fuel - 1)).zip
          ((batch_errors curves (n0 + fuel - 1)).zip M))).find?
            (fun q => offending q.2.1 q.2.2.1 q.2.2.2) = some q ∧
        err = ⟨q.1, q.2.2.1⟩ := by
  intro fuel
  induction fuel with
  | zero => intro n0 sp0 er0 h1 _ _; omega
  | succ fuel ih =>
    intro n0 sp0 er0 _ hn2 h
    simp only [ctqs_loop] at h
    cases fuel with
    | zero =>
      have hn0 : 2 ≤ n0 := by omega
      rw [if_pos (batch_splines_all_isSome curves n0 hn0)] at h
      by_cases hwit :
          (List.zipWith within (batch_errors curves n0) M).all id = true
      · rw [if_pos hwit] at h; cases h
      · rw [if_neg hwit] at h
        simp only [ctqs_loop] at h
        rw [show n0 + (0 + 1) - 1 = n0 from by omega]
        cases hfind : (curves.zip ((batch_splines curves n0).zip
            ((batch_errors curves n0).zip M))).find?
              (fun q => offending q.2.1 q.2.2.1 q.2.2.2) with
        | none => simp only [hfind] at h; cases h
        | some q =>
          simp only [hfind] at h
          exact ⟨q, rfl, (Except.error.inj h).symm⟩
    | succ fuel =>
      have heq : n0 + (fuel + 1 + 1) - 1 = (n0 + 1) + (fuel + 1) - 1 := by omega
      rw [heq]
      by_cases hall : (batch_splines curves n0).all (fun s => s.isSome) = true
      · rw [if_pos hall] at h
        by_cases hwit :
            (List.zipWith within (batch_errors curves n0) M).all id = true
        · rw [if_pos hwit] at h; cases h
        · rw [if_neg hwit] at h
          exact ih (n0 + 1) (batch_splines curves n0) (batch_errors curves n0)
            (by omega) (by omega) h
      · rw [if_neg hall] at h
        exact ih (n0 + 1) (batch_splines curves n0) er0 (by omega) (by omega) h

theorem batch_splines_getD (curves : List Cubic) (n i : ℕ)
    (hi : i < curves.length) :
    (batch_splines curves n).getD i none =
      cubic_approx_spline (curves.getD i default) n := by
  have h2 : i < (batch_splines curves n).length := by
    rw [batch_splines_length]; exact hi
  rw [List.getD_eq_getElem _ _ h2, List.getD_eq_getElem _ _ hi]
  exact List.getElem_map _

theorem batch_errors_getD (curves : List Cubic) (n i : ℕ)
    (hi : i < curves.length) :
    (batch_errors curves n).getD i none =
      ((batch_splines curves n).getD i none).map
        (fun sp => curve_spline_dist_sq (curves.getD i default) sp) := by
  have h1 : i < (batch_errors curves n).length := by
    rw [batch_errors_length]; exact hi
  have h2 : i < (batch_splines curves n).length := by
    rw [batch_splines_length]; exact hi
  rw [List.getD_eq_getElem _ _ h1, List.getD_eq_getElem _ _ h2,
    List.getD_eq_getElem _ _ hi]
  exact List.getElem_zipWith

theorem batch_errors_getD_nonneg (curves : List Cubic) (n i : ℕ) (e : ℚ)
    (h : (batch_errors curves n).getD i none = some e) : 0 ≤ e := by
  by_cases hi : i < curves.length
  · rw [batch_errors_getD curves n i hi] at h
    cases hsp : (batch_splines curves n).getD i none with
    | none => rw [hsp] at h; cases h
    | some sp =>
      rw [hsp] at h
      obtain rfl : curve_spline_dist_sq (curves.getD i default) sp = e := by
        simpa using h
      exact curve_spline_dist_sq_nonneg _ _
  · rw [List.getD_eq_default _ _ (by rw [batch_errors_length]; omega)] at h
    cases h

/-- C8: when the batch search succeeds, every returned spline comes from one
shared segment count n — the smallest in 1..MAX_N for which every curve has a
candidate spline and every sampled error is within its own tolerance (at an n
where some curve yields no spline the joint test fails with no errors
computed, `batch_ok` is false there) — each returned spline is present with
length n + 2, and the errors are exactly the sampled errors at that same n. -/
theorem curves_to_quadratic_min_shared_n (curves : List Cubic) (M : List ℚ)
    (splines : List (Option (List Point))) (errors : List (Option ℚ))
    (hres : curves_to_quadratic curves M = .ok (splines, errors)) :
    ∃ n, 1 ≤ n ∧ n ≤ MAX_N ∧ splines = batch_splines curves n ∧
      errors = batch_errors curves n ∧
      (∀ os ∈ splines, ∃ s, os = some s ∧ s.length = n + 2) ∧
      (∀ i, i < curves.length → i < M.length →
        ∃ e, errors.getD i none = some e ∧
          Real.sqrt ((e : ℚ) : ℝ) ≤ ((M.getD i 0 : ℚ) : ℝ)) ∧
      ∀ k, 1 ≤ k → k < n → batch_ok curves M k = false := by
  obtain ⟨n, h1, h2, h3, h4, h5, h6, h7⟩ := ctqs_loop_ok curves M MAX_N 1
    (curves.map fun _ => none) (curves.map fun _ => none) splines errors
    (by norm_num [MAX_N]) (by norm_num [MAX_N]) hres
  refine ⟨n, by omega, by omega, h3, h4, ?_, ?_,
    fun k hk1 hk2 => h7 k (by omega) hk2⟩
  · intro os hos
    rw [h3] at hos
    rw [batch_splines, List.mem_map] at hos
    obtain ⟨c, hc, rfl⟩ := hos
    rw [List.all_eq_true] at h5
    have hsome : (cubic_approx_spline c n).isSome = true :=
      h5 _ (by rw [batch_splines, List.mem_map]; exact ⟨c, hc, rfl⟩)
    obtain ⟨s, hs⟩ := Option.isSome_iff_exists.mp hsome
    exact ⟨s, hs, (cubic_approx_spline_shape c n (by omega) s hs).1⟩
  · intro i hiC hiM
    have hwit := all_within_getD (batch_errors curves n) M h6 i
      (by rw [batch_errors_length]; exact hiC) hiM
    rw [h4]
    cases hoe : (batch_errors curves n).getD i none with
    | none => rw [hoe] at hwit; simp [within] at hwit
    | some e =>
      rw [hoe] at hwit
      have herr : err_le e (M.getD i 0) = true := by simpa [within] using hwit
      refine ⟨e, rfl, ?_⟩
      exact (err_le_iff e (M.getD i 0)
        (batch_errors_getD_nonneg curves n i e hoe)).mp herr

/-- C9: when the batch search exhausts the segment-count cap, it fails with an
ApproxNotFound condition carrying the first offending curve in input order (a
curve without a spline or with error above its own tolerance in the final,
n = MAX_N state) together with that curve's last-measured error; every earlier
curve is not offending, and the offender's error is a measured value above its
own tolerance. -/
theorem curves_to_quadratic_first_offender (curves : List Cubic) (M : List ℚ)
    (hlen : curves.length = M.length) (err : ApproxNotFoundError)
    (hres : curves_to_quadratic curves M = .error err) :
    ∃ i, i < curves.length ∧
      err.curve = curves.getD i default ∧
      err.error = (batch_errors curves MAX_N).getD i none ∧
      offending ((batch_splines curves MAX_N).getD i none)
        ((batch_errors curves MAX_N).getD i none) (M.getD i 0) = true ∧
      (∃ e, (batch_errors curves MAX_N).getD i none = some e ∧
        ¬ (Real.sqrt ((e : ℚ) : ℝ) ≤ ((M.getD i 0 : ℚ) : ℝ))) ∧
      ∀ j, j < i →
        offending ((batch_splines curves MAX_N).getD j none)
          ((batch_errors curves MAX_N).getD j none) (M.getD j 0) = false := by
  obtain ⟨q, hfind, herr⟩ := ctqs_loop_error curves M err MAX_N 1
    (curves.map fun _ => none) (curves.map fun _ => none)
    (by norm_num [MAX_N]) (by norm_num [MAX_N]) hres
  rw [show 1 + MAX_N - 1 = MAX_N from by omega] at hfind
  have hlenS := batch_splines_length curves MAX_N
  have hlenE := batch_errors_length curves MAX_N
  have hlenEM : ((batch_errors curves MAX_N).zip M).length = curves.length := by
    rw [List.length_zip, hlenE, ← hlen, min_self]
  have hlenSEM : ((batch_splines curves MAX_N).zip
      ((batch_errors curves MAX_N).zip M)).length = curves.length := by
    rw [List.length_zip, hlenS, hlenEM, min_self]
  have hlen4 : (curves.zip ((batch_splines curves MAX_N).zip
      ((batch_errors curves MAX_N).zip M))).length = curves.length := by
    rw [List.length_zip, hlenSEM, min_self]
  obtain ⟨i, hi, hgetD, hq, hfirst⟩ :=
    find_first (fun q => offending q.2.1 q.2.2.1 q.2.2.2)
      (default, (none, (none, 0))) _ q hfind
  have hiC : i < curves.length := hlen4 ▸ hi
  have hzip : ∀ j, j < curves.length →
      (curves.zip ((batch_splines curves MAX_N).zip
        ((batch_errors curves MAX_N).zip M))).getD j
          (default, (none, (none, 0))) =
        (curves.getD j default, ((batch_splines curves MAX_N).getD j none,
          ((batch_errors curves MAX_N).getD j none, M.getD j 0))) := by
    intro j hj
    rw [zip_getD _ _ j default (none, (none, 0)) hj (by omega),
      zip_getD _ _ j none (none, 0) (by omega) (by omega),
      zip_getD _ _ j none 0 (by omega) (by omega)]
  rw [hzip i hiC] at hgetD
  subst hgetD
  dsimp only at hq herr
  obtain ⟨he, hse⟩ : ∃ s, (batch_splines curves MAX_N).getD i none = some s := by
    rw [batch_splines_getD curves MAX_N i hiC]
    exact Option.isSome_iff_exists.mp
      (cubic_approx_spline_isSome _ MAX_N (by norm_num [MAX_N]))
  have hEi : (batch_errors curves MAX_N).getD i none =
      some (curve_spline_dist_sq (curves.getD i default) he) := by
    rw [batch_errors_getD curves MAX_N i hiC, hse]
    rfl
  refine ⟨i, hiC, ?_, ?_, hq, ?_, ?_⟩
  · rw [herr]
  · rw [herr]
  · refine ⟨curve_spline_dist_sq (curves.getD i default) he, hEi, ?_⟩
    intro hsqrt
    have hle : err_le (curve_spline_dist_sq (curves.getD i default) he)
        (M.getD i 0) = true :=
      (err_le_iff _ _ (curve_spline_dist_sq_nonneg _ _)).mpr hsqrt
    rw [hse, hEi] at hq
    simp only [offending, within, Option.isNone_some, Bool.false_or] at hq
    rw [hle] at hq
    simp at hq
  · intro j hj
    have hj' := hfirst j hj
    rw [hzip j (by omega)] at hj'
    exact hj'

theorem curves_to_quadratic_min_shared_n_witness :
    ∃ n, 1 ≤ n ∧ n ≤ MAX_N ∧
      ([some [((0 : ℚ), (0 : ℚ)), (3 / 4, 0), (9 / 4, 0), (3, 0)]] :
        List (Option (List Point))) = batch_splines [lineCubic] n ∧
      ([some (0 : ℚ)] : List (Option ℚ)) = batch_errors [lineCubic] n ∧
      (∀ os ∈ ([some [((0 : ℚ), (0 : ℚ)), (3 / 4, 0), (9 / 4, 0), (3, 0)]] :
          List (Option (List Point))), ∃ s, os = some s ∧ s.length = n + 2) ∧
      (∀ i, i < ([lineCubic] : List Cubic).length → i < ([1] : List ℚ).length →
        ∃ e, ([some (0 : ℚ)] : List (Option ℚ)).getD i none = some e ∧
          Real.sqrt ((e : ℚ) : ℝ) ≤ ((([1] : List ℚ).getD i 0 : ℚ) : ℝ)) ∧
      ∀ k, 1 ≤ k → k < n → batch_ok [lineCubic] [1] k = false :=
  curves_to_quadratic_min_shared_n [lineCubic] [1] _ _
    (by set_option maxRecDepth 100000 in with_unfolding_all rfl)

set_option maxRecDepth 2000000 in
set_option maxHeartbeats 4000000 in
theorem zero_batch_exhaust_eval :
    curves_to_quadratic [zeroCubic] [-1] = .error ⟨zeroCubic, some 0⟩ := by
  with_unfolding_all rfl

theorem curves_to_quadratic_first_offender_witness :
    ∃ i, i < ([zeroCubic] : List Cubic).length ∧
      (⟨zeroCubic, some 0⟩ : ApproxNotFoundError).curve =
        ([zeroCubic] : List Cubic).getD i default ∧
      (⟨zeroCubic, some 0⟩ : ApproxNotFoundError).error =
        (batch_errors [zeroCubic] MAX_N).getD i none ∧
      offending ((batch_splines [zeroCubic] MAX_N).getD i none)
        ((batch_errors [zeroCubic] MAX_N).getD i none)
        (([-1] : List ℚ).getD i 0) = true ∧
      (∃ e, (batch_errors [zeroCubic] MAX_N).getD i none = some e ∧
        ¬ (Real.sqrt ((e : ℚ) : ℝ) ≤ ((([-1] : List ℚ).getD i 0 : ℚ) : ℝ))) ∧
      ∀ j, j < i →
        offending ((batch_splines [zeroCubic] MAX_N).getD j none)
          ((batch_errors [zeroCubic] MAX_N).getD j none)
          (([-1] : List ℚ).getD j 0) = false :=
  curves_to_quadratic_first_offender [zeroCubic] [-1] (by rfl)
    ⟨zeroCubic, some 0⟩ zero_batch_exhaust_eval

end Cu2qu
